import Mathlib

/-!
Verification development for the PIXELPLUS-SDK image pipeline core.

Shallow embedding of:
* the `CSH_Image` buffer data type (CSH_Image.h) with its shared backing store,
  copy semantics and TLV binary persistence;
* the algorithm registry dispatch (`CIpmFuncTable::process`, IpmTypes.h);
* the pipeline stage-input resolution (`CImageProcessMng`);
* the plugin loader once-only semantics (`CIpmUserCustomLoader`).

Machine integers are modelled as `Nat` (byte values are `Nat` below 256 where
relevant); backing buffers live in an explicit store (`Buffers`) so that
aliasing through shared buffer references is observable.  Fallible operations
return `Except`.
-/

set_option maxHeartbeats 1600000

namespace PixelPlus

/-- Backing-buffer store: buffer id `i` holds the byte list at index `i`.
Models the `std::shared_ptr<byte[]>` allocations shared between images. -/
abbrev Buffers := List (List Nat)

/-- Read the buffer with id `id` (empty when the id is stale). -/
def bufRead (bufs : Buffers) (id : Nat) : List Nat := bufs.getD id []

/-- Image container translated from `csh_img::CSH_Image` (CSH_Image.h): the public
metadata fields, the private `buffer_offset` / `buffer_capacity_bytes`, and the
nullable shared buffer reference (here: an id into the store).  Enum-typed fields
(`format`, `pattern`, `memory_align`) carry the numeric codes from the header. -/
structure CSH_Image where
  width : Nat := 0
  height : Nat := 0
  bEnable : Bool := false
  camera_id : Nat := 0
  format : Nat := 101
  memory_bit : Nat := 8
  original_bit : Nat := 8
  pattern : Nat := 0
  memory_align : Nat := 0
  buffer_size : Nat := 0
  image_count : Nat := 1
  sel_image : Nat := 0
  buffer : Option Nat := none
  buffer_offset : Nat := 0
  buffer_capacity_bytes : Nat := 0
deriving Repr, DecidableEq

/-- From the source (CSH_Image.h, `totalBytes`): logical total bytes
= per-frame bytes times image count. -/
def totalBytes (img : CSH_Image) : Nat :=
  img.buffer_size * img.image_count

/-- From the source (CSH_Image.h, `writableBytesFromView`): the capacity bound
`cap = buffer_capacity_bytes ? buffer_capacity_bytes : totalBytes()` — bounds
checks fall back to `totalBytes()` when the recorded capacity is zero. -/
def capOf (img : CSH_Image) : Nat :=
  if img.buffer_capacity_bytes ≠ 0 then img.buffer_capacity_bytes else totalBytes img

/-- From the source (CSH_Image.h, `writableBytesFromView`): bytes writable from the
current view to the end of the allocation; the result is `cap - buffer_offset`
when positive, else 0. -/
def writableBytesFromView (img : CSH_Image) : Nat :=
  if capOf img > img.buffer_offset then capOf img - img.buffer_offset else 0

/-- The bytes of the current view of `img`: `buffer_size` bytes starting at
`buffer_offset` in the backing buffer (empty when there is no buffer). -/
def viewBytes (bufs : Buffers) (img : CSH_Image) : List Nat :=
  match img.buffer with
  | none => []
  | some id => ((bufRead bufs id).drop img.buffer_offset).take img.buffer_size

/-- Overwrite the bytes of `l` starting at `off` with `seg`. -/
def writeSeg (l : List Nat) (off : Nat) (seg : List Nat) : List Nat :=
  l.take off ++ seg ++ l.drop (off + seg.length)

/-- Write `seg` into the buffer with id `id` at offset `off`. -/
def storeWrite (bufs : Buffers) (id off : Nat) (seg : List Nat) : Buffers :=
  bufs.set id (writeSeg (bufRead bufs id) off seg)

/-- Read one byte at `pos` of buffer `id`. -/
def readByte (bufs : Buffers) (id pos : Nat) : Nat :=
  (bufRead bufs id).getD pos 0

/-- Write one byte at `pos` of buffer `id`. -/
def writeByte (bufs : Buffers) (id pos v : Nat) : Buffers :=
  bufs.set id ((bufRead bufs id).set pos v)

/-- Errors raised by the image operations (the header throws
`std::runtime_error` / `std::out_of_range` / `std::invalid_argument`). -/
inductive ImgError
  | capacityError
  | outOfRange
  | invalidArgument
  | ioError (msg : String)
deriving Repr, DecidableEq

/-- Copy semantics, from `csh_img::CopyMode` (CSH_Image.h). -/
inductive CopyMode
  | metaOnly
  | shallow
  | deep
deriving Repr, DecidableEq

/-- Modelled from the spec: `CSH_Image::copy(src, mode)` is declared in CSH_Image.h
but its definition is not in the repository snapshot.  Per the spec: `MetaOnly`
copies metadata and drops the buffer reference; `Shallow` adopts src's buffer
reference and view state; `Deep` copies the source view's bytes into the
*existing* destination buffer at its current view, failing with a capacity error
when the destination has no buffer or fewer writable bytes
(`writableBytesFromView`, a source definition) than the source view requires, and
never allocating. -/
def copy (bufs : Buffers) (dst src : CSH_Image) (mode : CopyMode) :
    Except ImgError (Buffers × CSH_Image) :=
  match mode with
  | .metaOnly =>
      .ok (bufs, { src with buffer := none, buffer_capacity_bytes := 0 })
  | .shallow =>
      .ok (bufs, src)
  | .deep =>
      match dst.buffer with
      | none => .error .capacityError
      | some id =>
          if writableBytesFromView dst < src.buffer_size then
            .error .capacityError
          else
            let payload := viewBytes bufs src
            .ok (storeWrite bufs id dst.buffer_offset payload,
                 { src with buffer := some id,
                            buffer_offset := dst.buffer_offset,
                            sel_image := dst.sel_image,
                            buffer_capacity_bytes := dst.buffer_capacity_bytes })

/-- Modelled from the spec: `CSH_Image::setSelectedImage(idx)` is declared in
CSH_Image.h but its definition is not in the repository snapshot.  Per the header
contract it throws out-of-range if `idx >= image_count` or if the recomputed
offset exceeds capacity, and otherwise selects the view
(`buffer_offset = sel_image * buffer_size`, documented invariant). -/
def setSelectedImage (img : CSH_Image) (idx : Nat) : Except ImgError CSH_Image :=
  if img.image_count ≤ idx then .error .outOfRange
  else if capOf img < idx * img.buffer_size then .error .outOfRange
  else .ok { img with sel_image := idx, buffer_offset := idx * img.buffer_size }

/-- Modelled from the spec: `CSH_Image::allocateBuffer()` is declared in
CSH_Image.h but its definition is not in the repository snapshot.  Per the
header: allocates exactly `totalBytes()`, fails when `buffer_size` or
`image_count` is zero, sets `buffer_capacity_bytes`, ensures `sel_image` is in
range and updates `buffer_offset` accordingly. -/
def allocateBuffer (bufs : Buffers) (img : CSH_Image) :
    Except ImgError (Buffers × CSH_Image) :=
  if img.buffer_size = 0 ∨ img.image_count = 0 then .error (.ioError "zero size")
  else
    let total := totalBytes img
    let sel := if img.sel_image < img.image_count then img.sel_image else 0
    .ok (bufs ++ [List.replicate total 0],
         { img with buffer := some bufs.length,
                    buffer_capacity_bytes := total,
                    sel_image := sel,
                    buffer_offset := sel * img.buffer_size })

/-- The documented `CSH_Image` view invariants (spec §3):
`buffer_offset = sel_image * buffer_size` and `sel_image < image_count`. -/
def ImgInv (img : CSH_Image) : Prop :=
  img.buffer_offset = img.sel_image * img.buffer_size ∧
  img.sel_image < img.image_count

instance (img : CSH_Image) : Decidable (ImgInv img) := by
  unfold ImgInv; infer_instance

/-! ## TLV binary persistence (CSH_Image.h: `saveImage` / `loadImage`) -/

/-- From the source (CSH_Image.h): file magic, the 32-bit constant `0x43485349`
whose big-endian byte spelling is ASCII `CHSI`. -/
def kMagic : Nat := 0x43485349

/-- From the source (CSH_Image.h): TLV format version. -/
def kVersion : Nat := 1

/-- Little-endian 4-byte encoding of a 32-bit value. -/
def le32 (n : Nat) : List Nat :=
  [n % 256, n / 256 % 256, n / 65536 % 256, n / 16777216 % 256]

/-- Little-endian 8-byte encoding of a 64-bit value. -/
def le64 (n : Nat) : List Nat :=
  [n % 256, n / 256 % 256, n / 65536 % 256, n / 16777216 % 256,
   n / 2 ^ 32 % 256, n / 2 ^ 40 % 256, n / 2 ^ 48 % 256, n / 2 ^ 56 % 256]

/-- Decode a little-endian u32 from the head of a byte list. -/
def rd32 : List Nat → Option (Nat × List Nat)
  | b0 :: b1 :: b2 :: b3 :: rest =>
      some (b0 + 256 * b1 + 65536 * b2 + 16777216 * b3, rest)
  | _ => none

/-- Decode a little-endian u64 from the head of a byte list. -/
def rd64 : List Nat → Option (Nat × List Nat)
  | b0 :: b1 :: b2 :: b3 :: b4 :: b5 :: b6 :: b7 :: rest =>
      some (b0 + 256 * b1 + 65536 * b2 + 16777216 * b3 +
            2 ^ 32 * b4 + 2 ^ 40 * b5 + 2 ^ 48 * b6 + 2 ^ 56 * b7, rest)
  | _ => none

/-- One TLV entry with a 4-byte payload: `tag:u32, length:u64 (=4), value:u32`. -/
def tlv32 (tag v : Nat) : List Nat := le32 tag ++ le64 4 ++ le32 v

/-- One TLV entry with an 8-byte payload: `tag:u32, length:u64 (=8), value:u64`. -/
def tlv64 (tag v : Nat) : List Nat := le32 tag ++ le64 8 ++ le64 v

/-- A metadata field value: written as a 32-bit or a 64-bit integer. -/
inductive FieldVal
  | u32 (v : Nat)
  | u64 (v : Nat)
deriving Repr, DecidableEq

/-- One metadata field: its TLV tag and its value. -/
structure FieldSpec where
  tag : Nat
  val : FieldVal
deriving Repr, DecidableEq

/-- Encode one metadata field as a TLV entry. -/
def encodeField (s : FieldSpec) : List Nat :=
  match s.val with
  | .u32 v => tlv32 s.tag v
  | .u64 v => tlv64 s.tag v

/-- Encode a field list as consecutive TLV entries. -/
def encodeFields : List FieldSpec → List Nat
  | [] => []
  | s :: rest => encodeField s ++ encodeFields rest

/-- The field value fits its declared width. -/
def SpecOk (s : FieldSpec) : Prop :=
  match s.val with
  | .u32 v => v < 2 ^ 32
  | .u64 v => v < 2 ^ 64

/-- The ordered metadata field list written by `saveImage` (tags
`F_WIDTH = 1` … `F_BUFFER_OFF = 13` of CSH_Image.h, in tag order). -/
def imgSpecs (img : CSH_Image) : List FieldSpec :=
  [⟨1, .u32 img.width⟩, ⟨2, .u32 img.height⟩,
   ⟨3, .u32 (if img.bEnable then 1 else 0)⟩, ⟨4, .u32 img.camera_id⟩,
   ⟨5, .u32 img.format⟩, ⟨6, .u32 img.memory_bit⟩,
   ⟨7, .u32 img.original_bit⟩, ⟨8, .u32 img.pattern⟩,
   ⟨9, .u32 img.memory_align⟩, ⟨10, .u64 img.buffer_size⟩,
   ⟨11, .u32 img.image_count⟩, ⟨12, .u32 img.sel_image⟩,
   ⟨13, .u64 img.buffer_offset⟩]

/-- Modelled from the spec: `CSH_Image::saveImage` is declared in CSH_Image.h but
its definition is not in the repository snapshot.  Per the spec (§6) and the
header's TLV constants (field tags `F_WIDTH = 1 … F_BUFFER_OFF = 13`,
`F_BUFFER_BYTES = 100`): header = magic, version, field count; then one TLV
entry per metadata field, and — when a buffer exists — a final bulk field
(tag 100) holding the raw pixel bytes.  All integers little-endian. -/
def saveImage (bufs : Buffers) (img : CSH_Image) : List Nat :=
  let fieldCount := 13 + (if img.buffer.isSome then 1 else 0)
  let fields := encodeFields (imgSpecs img)
  let bulk :=
    match img.buffer with
    | none => []
    | some id =>
        le32 100 ++ le64 (totalBytes img) ++ (bufRead bufs id).take (totalBytes img)
  le32 kMagic ++ le32 kVersion ++ le32 fieldCount ++ fields ++ bulk

/-- Accumulator used while reconstructing an image from TLV fields. -/
structure LoadAcc where
  img : CSH_Image
  bulk : Option (List Nat)
deriving Repr

/-- Apply one decoded TLV field (tag and payload) to the accumulator.
Unknown tags are skipped (the format is documented forward-compatible). -/
def applyField (acc : LoadAcc) (tag : Nat) (payload : List Nat) :
    Except ImgError LoadAcc :=
  if tag = 1 then
    match rd32 payload with
    | some (v, _) => .ok { acc with img := { acc.img with width := v } }
    | none => .error (.ioError "bad field")
  else if tag = 2 then
    match rd32 payload with
    | some (v, _) => .ok { acc with img := { acc.img with height := v } }
    | none => .error (.ioError "bad field")
  else if tag = 3 then
    match rd32 payload with
    | some (v, _) => .ok { acc with img := { acc.img with bEnable := v ≠ 0 } }
    | none => .error (.ioError "bad field")
  else if tag = 4 then
    match rd32 payload with
    | some (v, _) => .ok { acc with img := { acc.img with camera_id := v } }
    | none => .error (.ioError "bad field")
  else if tag = 5 then
    match rd32 payload with
    | some (v, _) => .ok { acc with img := { acc.img with format := v } }
    | none => .error (.ioError "bad field")
  else if tag = 6 then
    match rd32 payload with
    | some (v, _) => .ok { acc with img := { acc.img with memory_bit := v } }
    | none => .error (.ioError "bad field")
  else if tag = 7 then
    match rd32 payload with
    | some (v, _) => .ok { acc with img := { acc.img with original_bit := v } }
    | none => .error (.ioError "bad field")
  else if tag = 8 then
    match rd32 payload with
    | some (v, _) => .ok { acc with img := { acc.img with pattern := v } }
    | none => .error (.ioError "bad field")
  else if tag = 9 then
    match rd32 payload with
    | some (v, _) => .ok { acc with img := { acc.img with memory_align := v } }
    | none => .error (.ioError "bad field")
  else if tag = 10 then
    match rd64 payload with
    | some (v, _) => .ok { acc with img := { acc.img with buffer_size := v } }
    | none => .error (.ioError "bad field")
  else if tag = 11 then
    match rd32 payload with
    | some (v, _) => .ok { acc with img := { acc.img with image_count := v } }
    | none => .error (.ioError "bad field")
  else if tag = 12 then
    match rd32 payload with
    | some (v, _) => .ok { acc with img := { acc.img with sel_image := v } }
    | none => .error (.ioError "bad field")
  else if tag = 13 then
    match rd64 payload with
    | some (v, _) => .ok { acc with img := { acc.img with buffer_offset := v } }
    | none => .error (.ioError "bad field")
  else if tag = 100 then
    .ok { acc with bulk := some payload }
  else
    .ok acc

/-- Parse `cnt` TLV fields (`tag:u32, length:u64, payload`) from `l`,
failing on truncation. -/
def parseFields : Nat → LoadAcc → List Nat → Except ImgError LoadAcc
  | 0, acc, _ => .ok acc
  | n + 1, acc, l =>
    match rd32 l with
    | none => .error (.ioError "truncated")
    | some (tag, l1) =>
      match rd64 l1 with
      | none => .error (.ioError "truncated")
      | some (len, l2) =>
        if l2.length < len then .error (.ioError "truncated")
        else
          match applyField acc tag (l2.take len) with
          | .error e => .error e
          | .ok acc' => parseFields n acc' (l2.drop len)

/-- Effect of one decoded metadata field on the accumulator (the payload of a
`FieldSpec` is decoded back by `applyField`). -/
def applySpec (acc : LoadAcc) (s : FieldSpec) : Except ImgError LoadAcc :=
  match s.val with
  | .u32 v => applyField acc s.tag (le32 v)
  | .u64 v => applyField acc s.tag (le64 v)

/-- Effect of a decoded field list on the accumulator. -/
def applySpecs (acc : LoadAcc) : List FieldSpec → Except ImgError LoadAcc
  | [] => .ok acc
  | s :: rest =>
    match applySpec acc s with
    | .error e => .error e
    | .ok acc' => applySpecs acc' rest

/-- Final phase of a load: reallocate a buffer sized to the declared
`buffer_size * image_count` and copy the bulk payload in (no bulk field means
an image without a buffer). -/
def finishLoad (bufs : Buffers) (acc : LoadAcc) :
    Except ImgError (Buffers × CSH_Image) :=
  match acc.bulk with
  | none => .ok (bufs, acc.img)
  | some payload =>
    if payload.length ≠ totalBytes acc.img then
      .error (.ioError "truncated")
    else
      .ok (bufs ++ [payload],
           { acc.img with buffer := some bufs.length,
                          buffer_capacity_bytes := totalBytes acc.img })

/-- Modelled from the spec: `CSH_Image::loadImage` is declared in CSH_Image.h but
its definition is not in the repository snapshot.  Per the spec (§6): validates
magic and version (fails otherwise), reconstructs the fields, reallocates a
buffer sized to the declared `perFrameSize * frameCount` and copies the bulk
payload in; truncated files are reported as errors. -/
def loadImage (bufs : Buffers) (bytes : List Nat) :
    Except ImgError (Buffers × CSH_Image) :=
  match rd32 bytes with
  | none => .error (.ioError "truncated")
  | some (m, r1) =>
    if m ≠ kMagic then .error (.ioError "bad magic")
    else
      match rd32 r1 with
      | none => .error (.ioError "truncated")
      | some (v, r2) =>
        if v ≠ kVersion then .error (.ioError "bad version")
        else
          match rd32 r2 with
          | none => .error (.ioError "truncated")
          | some (cnt, r3) =>
            match parseFields cnt ⟨{}, none⟩ r3 with
            | .error e => .error e
            | .ok acc => finishLoad bufs acc

/-! ## Algorithm registry (IpmTypes.h, CIpmFuncTable.h) -/

/-- Status codes, from `IpmStatus` in IpmTypes.h (a source definition). -/
inductive IpmStatus
  | NotAvailable
  | OK
  | Err_InvalidBackend
  | Err_InvalidModule
  | Err_AlgNotFound
  | Err_InvalidSize
  | Err_InvalidFormat
  | Err_NullFunction
  | Err_NullImage
  | Err_Internal
  | IsDevelopping
deriving Repr, DecidableEq

/-- From the source (IpmTypes.h): `EnProcessBackend::Count = 5`. -/
def backendCount : Int := 5

/-- From the source (IpmTypes.h): `EnIpmModule::Count = 4`. -/
def moduleCount : Int := 4

/-- Backend index range check (`isValidBackendIndex_` in CIpmFuncTable.h;
the valid indices are exactly the `EnProcessBackend` enumerators of IpmTypes.h). -/
def isValidBackendIndex (b : Int) : Bool := 0 ≤ b && b < backendCount

/-- Module index range check (`isValidModuleIndex_` in CIpmFuncTable.h;
the valid indices are exactly the `EnIpmModule` enumerators of IpmTypes.h). -/
def isValidModuleIndex (m : Int) : Bool := 0 ≤ m && m < moduleCount

/-- Outcome of invoking a registered callable: either the callable's own status,
or an internal fault (a thrown exception at the C++ level). -/
inductive CallOutcome
  | ret (s : IpmStatus)
  | fault
deriving Repr, DecidableEq

/-- A registered callable: the dispatch signature of IpmTypes.h
(`IpmFn`: input image or null, output image, two opaque parameters). -/
abbrev IpmFn := Option CSH_Image → CSH_Image → Option Nat → Option Nat → CallOutcome

/-- Registry entry, from `FuncInfo` in IpmTypes.h: callable handle
(`none` models an empty `std::function`) plus display name. -/
structure FuncInfo where
  fn : Option IpmFn
  uiName : String

/-- The 3-level registry table keyed by (backend, module, algorithm index),
modelling `funcTable_[backend][module]`'s map from index to `FuncInfo`. -/
abbrev FuncTable := Int → Int → Int → Option FuncInfo

/-- Modelled from the spec: `CIpmFuncTable::process` is declared in
CIpmFuncTable.h but its definition is not in the repository snapshot.  Per the
spec (§4.2): validates backend range (else `InvalidBackend`), module range
(else `InvalidModule`), presence of the key (else `AlgNotFound`), that the
callable is non-empty (else `NullFunction`); invokes the callable, mapping any
internal fault to `Internal` and otherwise returning the callable's status. -/
def process (tbl : FuncTable) (backend module algIndex : Int)
    (inImg : Option CSH_Image) (outImg : CSH_Image) (p1 p2 : Option Nat) :
    IpmStatus :=
  if ¬ isValidBackendIndex backend then .Err_InvalidBackend
  else if ¬ isValidModuleIndex module then .Err_InvalidModule
  else
    match tbl backend module algIndex with
    | none => .Err_AlgNotFound
    | some fi =>
      match fi.fn with
      | none => .Err_NullFunction
      | some f =>
        match f inImg outImg p1 p2 with
        | .ret s => s
        | .fault => .Err_Internal

/-! ## Pipeline stages (CImageProcessMng.h) -/

/-- One pipeline stage, from `CImageProcessMng::ProcItem` (CImageProcessMng.h).
Caller-owned image pointers are modelled as names (`Nat`); the optional input is
`none` when the caller passed a null pointer. -/
structure ProcItem where
  ipmModule : Int
  algIndex : Int
  backend : Int
  inp : Option Nat
  out : Nat
  p1 : Option Nat
  p2 : Option Nat
deriving Repr, DecidableEq

/-- Modelled from the spec: `CImageProcessMng::addProcList` appends a stage
description to the pipeline (its definition is not in the repository snapshot);
the stored `in` pointer may be null and is resolved by the worker. -/
def addProcList (stages : List ProcItem) (backend ipmModule algIndex : Int)
    (inp : Option Nat) (out : Nat) (p1 p2 : Option Nat) : List ProcItem :=
  stages ++ [⟨ipmModule, algIndex, backend, inp, out, p1, p2⟩]

/-- Modelled from the spec: the worker's per-stage effective-input resolution
(`CImageProcessMng::processOneFrame_` is not in the repository snapshot).
Per the spec (§4.4): the stage's explicit input if set; otherwise for stage 0 a
shallow reference to the freshly published frame; otherwise the previous
stage's output (auto-chaining). -/
def effectiveInput (stages : List ProcItem) (freshFrame : Nat) (n : Nat) :
    Option Nat :=
  match stages[n]? with
  | none => none
  | some st =>
    match st.inp with
    | some p => some p
    | none =>
      if n = 0 then some freshFrame
      else
        match stages[n - 1]? with
        | some prev => some prev.out
        | none => none

/-! ## Plugin loader (CIpmUserCustomLoader.h) -/

/-- Plugin catalog entry, from `AlgEntry` in IpmTypes.h: algorithm index plus
`FuncInfo`. -/
structure AlgEntry where
  alg : Int
  func : FuncInfo

/-- Loader state: whether the once-guarded load was already attempted, whether
it succeeded, how many actual open/resolve operations were performed, and the
entry list exposed by `entries()`. -/
structure LoaderState where
  attempted : Bool
  loaded : Bool
  openCount : Nat
  entries : List AlgEntry

/-- The loader state at process start (nothing attempted, no entries). -/
def initLoaderState : LoaderState :=
  ⟨false, false, 0, []⟩

/-- Modelled from the spec: `UserCustomLoader::loadOnce` is declared in
CIpmUserCustomLoader.h but its definition is not in the repository snapshot.
Per the spec (§4.3) and the header (`std::once_flag once_`): the actual module
open and symbol resolution run exactly once per process regardless of call
count; `attempt` is the environment's answer to that one open/resolve
(`some es` on success with the plugin's entry array, `none` on failure).
Returns the new state and the entry count. -/
def loadOnce (attempt : Option (List AlgEntry)) (s : LoaderState) :
    LoaderState × Nat :=
  if s.attempted then (s, s.entries.length)
  else
    match attempt with
    | some es => (⟨true, true, s.openCount + 1, es⟩, es.length)
    | none => (⟨true, false, s.openCount + 1, []⟩, 0)

/-- State after `n` successive `loadOnce` calls from process start. -/
def iterLoadOnce (attempt : Option (List AlgEntry)) : Nat → LoaderState
  | 0 => initLoaderState
  | n + 1 => (loadOnce attempt (iterLoadOnce attempt n)).1

/-! ## Concrete fixtures used by witness theorems -/

/-- Whether a copy attempt was accepted (returned a result rather than an error). -/
def copyAccepted (r : Except ImgError (Buffers × CSH_Image)) : Bool :=
  match r with
  | .ok _ => true
  | .error _ => false

/-- A small concrete registry: index 7 returns OK, index 8 holds an empty
callable, index 9 faults; everything else is unregistered. -/
def tbl0 : FuncTable := fun b m i =>
  if b = 0 && m = 0 && i = 7 then some ⟨some (fun _ _ _ _ => .ret .OK), "ok"⟩
  else if b = 0 && m = 0 && i = 8 then some ⟨none, "empty"⟩
  else if b = 0 && m = 0 && i = 9 then some ⟨some (fun _ _ _ _ => .fault), "boom"⟩
  else none

/-! # Theorems -/

/-- **C10**: when the recorded allocation capacity is zero, the writable-bytes
bound used by deep-copy capacity checks equals the declared logical size
`buffer_size * image_count` minus the current view offset; and acceptance of a
deep copy is judged from the image's declared metadata only — it does not
depend on the contents of the backing store. -/
theorem zero_capacity_fallback (img : CSH_Image)
    (h : img.buffer_capacity_bytes = 0) :
    writableBytesFromView img = totalBytes img - img.buffer_offset ∧
    ∀ (bufs₁ bufs₂ : Buffers) (dst src : CSH_Image),
      copyAccepted (copy bufs₁ dst src .deep) =
      copyAccepted (copy bufs₂ dst src .deep) := by
  constructor
  · have hcap : capOf img = totalBytes img := by simp [capOf, h]
    unfold writableBytesFromView
    rw [hcap]
    split <;> omega
  · intro bufs₁ bufs₂ dst src
    unfold copy
    cases dst.buffer with
    | none => rfl
    | some id =>
      by_cases hc : writableBytesFromView dst < src.buffer_size <;>
        simp [hc, copyAccepted]

/-- Witness for C10 at a concrete image with zero recorded capacity. -/
theorem zero_capacity_fallback_witness :
    writableBytesFromView { buffer_size := 4, image_count := 3, buffer_offset := 5,
                            buffer_capacity_bytes := 0 } = 7 := by
  have h := zero_capacity_fallback
    { buffer_size := 4, image_count := 3, buffer_offset := 5,
      buffer_capacity_bytes := 0 } rfl
  rw [h.1]
  rfl

/-- **C1**: `process(backend, module, index, in, out, p1, p2)` validates the
backend range (else `InvalidBackend`), then the module range (else
`InvalidModule`), then presence of the key (else `AlgNotFound`), then that the
registered callable is non-empty (else `NullFunction`); otherwise it invokes
the callable, returning the callable's own status and mapping an internal
fault to `Internal`. -/
theorem process_dispatch (tbl : FuncTable) (b m i : Int)
    (inImg : Option CSH_Image) (outImg : CSH_Image) (p1 p2 : Option Nat) :
    (isValidBackendIndex b = false →
      process tbl b m i inImg outImg p1 p2 = .Err_InvalidBackend) ∧
    (isValidBackendIndex b = true → isValidModuleIndex m = false →
      process tbl b m i inImg outImg p1 p2 = .Err_InvalidModule) ∧
    (isValidBackendIndex b = true → isValidModuleIndex m = true →
      tbl b m i = none →
      process tbl b m i inImg outImg p1 p2 = .Err_AlgNotFound) ∧
    (∀ fi, isValidBackendIndex b = true → isValidModuleIndex m = true →
      tbl b m i = some fi → fi.fn = none →
      process tbl b m i inImg outImg p1 p2 = .Err_NullFunction) ∧
    (∀ fi f s, isValidBackendIndex b = true → isValidModuleIndex m = true →
      tbl b m i = some fi → fi.fn = some f → f inImg outImg p1 p2 = .ret s →
      process tbl b m i inImg outImg p1 p2 = s) ∧
    (∀ fi f, isValidBackendIndex b = true → isValidModuleIndex m = true →
      tbl b m i = some fi → fi.fn = some f → f inImg outImg p1 p2 = .fault →
      process tbl b m i inImg outImg p1 p2 = .Err_Internal) := by
  refine ⟨?_, ?_, ?_, ?_, ?_, ?_⟩
  · intro hb; simp [process, hb]
  · intro hb hm; simp [process, hb, hm]
  · intro hb hm ht; simp [process, hb, hm, ht]
  · intro fi hb hm ht hf; simp [process, hb, hm, ht, hf]
  · intro fi f s hb hm ht hf hr; simp [process, hb, hm, ht, hf, hr]
  · intro fi f hb hm ht hf hr; simp [process, hb, hm, ht, hf, hr]

/-- Witness for C1: every dispatch branch exercised on the concrete table. -/
theorem process_dispatch_witness :
    process tbl0 5 0 7 none {} none none = .Err_InvalidBackend ∧
    process tbl0 0 4 7 none {} none none = .Err_InvalidModule ∧
    process tbl0 1 1 7 none {} none none = .Err_AlgNotFound ∧
    process tbl0 0 0 8 none {} none none = .Err_NullFunction ∧
    process tbl0 0 0 7 none {} none none = .OK ∧
    process tbl0 0 0 9 none {} none none = .Err_Internal := by
  refine ⟨(process_dispatch tbl0 5 0 7 none {} none none).1 (by decide),
          (process_dispatch tbl0 0 4 7 none {} none none).2.1 (by decide) (by decide),
          (process_dispatch tbl0 1 1 7 none {} none none).2.2.1 (by decide) (by decide) rfl,
          (process_dispatch tbl0 0 0 8 none {} none none).2.2.2.1
            ⟨none, "empty"⟩ (by decide) (by decide) rfl rfl,
          (process_dispatch tbl0 0 0 7 none {} none none).2.2.2.2.1
            ⟨some (fun _ _ _ _ => .ret .OK), "ok"⟩ (fun _ _ _ _ => .ret .OK) .OK
            (by decide) (by decide) rfl rfl rfl,
          (process_dispatch tbl0 0 0 9 none {} none none).2.2.2.2.2
            ⟨some (fun _ _ _ _ => .fault), "boom"⟩ (fun _ _ _ _ => .fault)
            (by decide) (by decide) rfl rfl rfl⟩

/-- **C5**: per-stage effective input: the stage's explicit input if set;
otherwise for stage 0 the freshly published frame; otherwise (stage `n > 0`
with null input) the previous stage's output — including the case of a stage
just appended by `addProcList` with a null input. -/
theorem effectiveInput_resolution (stages : List ProcItem) (fresh n : Nat)
    (st : ProcItem) (hn : stages[n]? = some st) :
    (∀ p, st.inp = some p → effectiveInput stages fresh n = some p) ∧
    (st.inp = none → n = 0 → effectiveInput stages fresh n = some fresh) ∧
    (st.inp = none → 0 < n → ∀ prev, stages[n - 1]? = some prev →
      effectiveInput stages fresh n = some prev.out) ∧
    (∀ (b mo a : Int) (out : Nat) (p1 p2 : Option Nat) (prev : ProcItem),
      0 < stages.length → stages[stages.length - 1]? = some prev →
      effectiveInput (addProcList stages b mo a none out p1 p2) fresh
        stages.length = some prev.out) ∧
    (∀ (b mo a : Int) (out : Nat) (p1 p2 : Option Nat),
      effectiveInput (addProcList [] b mo a none out p1 p2) fresh 0
        = some fresh) := by
  refine ⟨?_, ?_, ?_, ?_, ?_⟩
  · intro p hp; simp [effectiveInput, hn, hp]
  · intro hp h0; subst h0; simp [effectiveInput, hn, hp]
  · intro hp h0 prev hprev
    simp [effectiveInput, hn, hp, hprev, h0.ne']
  · intro b mo a out p1 p2 prev hlen hprev
    have hlast : (stages ++ [(⟨mo, a, b, none, out, p1, p2⟩ : ProcItem)])[
        stages.length]? = some ⟨mo, a, b, none, out, p1, p2⟩ :=
      List.getElem?_concat_length stages _
    have hprev' : (stages ++ [(⟨mo, a, b, none, out, p1, p2⟩ : ProcItem)])[
        stages.length - 1]? = some prev := by
      rw [List.getElem?_append_left (by omega)]
      exact hprev
    simp [effectiveInput, addProcList, hlast, hprev', Nat.pos_iff_ne_zero.mp hlen]
  · intro b mo a out p1 p2
    simp [effectiveInput, addProcList]

/-- Witness for C5 on a concrete two-stage pipeline. -/
theorem effectiveInput_resolution_witness :
    effectiveInput [⟨0, 1, 0, some 41, 50, none, none⟩,
                    ⟨0, 2, 0, none, 60, none, none⟩] 99 1 = some 50 ∧
    effectiveInput [⟨0, 1, 0, none, 50, none, none⟩] 99 0 = some 99 ∧
    effectiveInput [⟨0, 1, 0, some 41, 50, none, none⟩] 99 0 = some 41 := by
  refine ⟨?_, ?_, ?_⟩
  · exact (effectiveInput_resolution _ 99 1 ⟨0, 2, 0, none, 60, none, none⟩
      (by decide)).2.2.1 rfl (by decide) ⟨0, 1, 0, some 41, 50, none, none⟩
      (by decide)
  · exact (effectiveInput_resolution _ 99 0 ⟨0, 1, 0, none, 50, none, none⟩
      (by decide)).2.1 rfl rfl
  · exact (effectiveInput_resolution _ 99 0 ⟨0, 1, 0, some 41, 50, none, none⟩
      (by decide)).1 41 rfl

/-- After a once-guarded attempt the loader no longer changes state. -/
theorem loadOnce_fix (attempt : Option (List AlgEntry)) (s : LoaderState)
    (h : s.attempted = true) : (loadOnce attempt s).1 = s := by
  simp [loadOnce, h]

/-- After at least one `loadOnce` call the once-flag is consumed. -/
theorem iterLoadOnce_attempted (attempt : Option (List AlgEntry)) :
    ∀ n : Nat, (iterLoadOnce attempt (n + 1)).attempted = true := by
  intro n
  induction n with
  | zero => cases attempt <;> rfl
  | succ k ih =>
    show (loadOnce attempt (iterLoadOnce attempt (k + 1))).1.attempted = true
    rw [loadOnce_fix attempt _ ih]
    exact ih

/-- The loader state is unchanged by every call after the first. -/
theorem iterLoadOnce_stable (attempt : Option (List AlgEntry)) :
    ∀ n : Nat, 1 ≤ n → iterLoadOnce attempt n = iterLoadOnce attempt 1 := by
  intro n
  induction n with
  | zero => omega
  | succ k ih =>
    intro _
    cases Nat.eq_zero_or_pos k with
    | inl h0 => subst h0; rfl
    | inr hk =>
      show (loadOnce attempt (iterLoadOnce attempt k)).1 = _
      obtain ⟨m, rfl⟩ : ∃ m, k = m + 1 := ⟨k - 1, by omega⟩
      rw [loadOnce_fix attempt _ (iterLoadOnce_attempted attempt m)]
      exact ih hk

/-- **C9**: calling `loadOnce()` N > 1 times performs the actual module
open/symbol resolution exactly once per process, `entries()` is the same
stable list as after the first call, and after a successful load it is
exactly the plugin-supplied array. -/
theorem loadOnce_exactly_once (attempt : Option (List AlgEntry)) (N : Nat)
    (h : 1 < N) :
    (iterLoadOnce attempt N).openCount = 1 ∧
    (iterLoadOnce attempt N).entries = (iterLoadOnce attempt 1).entries ∧
    (∀ es, attempt = some es → (iterLoadOnce attempt N).entries = es) := by
  rw [iterLoadOnce_stable attempt N (by omega)]
  refine ⟨?_, rfl, ?_⟩
  · cases attempt <;> rfl
  · intro es hes; subst hes; rfl

/-- Witness for C9: three calls, one successful open, stable entries. -/
theorem loadOnce_exactly_once_witness :
    (iterLoadOnce (some [⟨3, ⟨none, "plug"⟩⟩]) 3).openCount = 1 ∧
    (iterLoadOnce (some [⟨3, ⟨none, "plug"⟩⟩]) 3).entries
      = [⟨3, ⟨none, "plug"⟩⟩] := by
  have h := loadOnce_exactly_once (some [⟨3, ⟨none, "plug"⟩⟩]) 3 (by decide)
  exact ⟨h.1, h.2.2 _ rfl⟩

/-- **C7**: the modelled image operations preserve the view invariants
`buffer_offset = sel_image * buffer_size` and `sel_image < image_count`
(deep copy for a destination pre-sized like the source); in particular
`setSelectedImage(idx)` fails with out-of-range for every
`idx ≥ image_count`, and on success selects `idx` with view offset
`idx * buffer_size`. -/
theorem view_invariants :
    (∀ (img : CSH_Image) (idx : Nat), img.image_count ≤ idx →
      setSelectedImage img idx = .error .outOfRange) ∧
    (∀ (img : CSH_Image) (idx : Nat) (img' : CSH_Image),
      setSelectedImage img idx = .ok img' →
      img'.sel_image = idx ∧ img'.buffer_offset = idx * img.buffer_size ∧
      ImgInv img') ∧
    (∀ (bufs : Buffers) (img : CSH_Image) (out : Buffers × CSH_Image),
      allocateBuffer bufs img = .ok out → ImgInv out.2) ∧
    (∀ (bufs : Buffers) (dst src : CSH_Image) (out : Buffers × CSH_Image),
      ImgInv src → copy bufs dst src .shallow = .ok out → ImgInv out.2) ∧
    (∀ (bufs : Buffers) (dst src : CSH_Image) (out : Buffers × CSH_Image),
      ImgInv src → copy bufs dst src .metaOnly = .ok out → ImgInv out.2) ∧
    (∀ (bufs : Buffers) (dst src : CSH_Image) (out : Buffers × CSH_Image),
      ImgInv dst → src.buffer_size = dst.buffer_size →
      src.image_count = dst.image_count →
      copy bufs dst src .deep = .ok out → ImgInv out.2) := by
  refine ⟨?_, ?_, ?_, ?_, ?_, ?_⟩
  · intro img idx h
    simp [setSelectedImage, h]
  · intro img idx img' h
    simp only [setSelectedImage] at h
    repeat' split at h
    any_goals exact Except.noConfusion h
    all_goals
      injection h with h
      subst h
      refine ⟨rfl, rfl, rfl, ?_⟩
      show idx < img.image_count
      omega
  · intro bufs img out h
    simp only [allocateBuffer] at h
    split at h
    · exact Except.noConfusion h
    · rename_i h1
      push_neg at h1
      injection h with h
      subst h
      refine ⟨rfl, ?_⟩
      show (if img.sel_image < img.image_count then img.sel_image else 0)
          < img.image_count
      split <;> omega
  · intro bufs dst src out hsrc h
    simp [copy] at h
    subst h
    exact hsrc
  · intro bufs dst src out hsrc h
    simp [copy] at h
    subst h
    exact hsrc
  · intro bufs dst src out hdst hsz hcnt h
    unfold copy at h
    cases hb : dst.buffer with
    | none => rw [hb] at h; simp at h
    | some id =>
      rw [hb] at h
      by_cases hc : writableBytesFromView dst < src.buffer_size
      · simp [hc] at h
      · simp [hc] at h
        subst h
        refine ⟨?_, ?_⟩
        · simp only
          rw [hdst.1, hsz]
        · simp only
          rw [hcnt]
          exact hdst.2

/-- Witness for C7: concrete select failure, successful select, and
invariant check. -/
theorem view_invariants_witness :
    setSelectedImage { buffer_size := 4, image_count := 3,
                       buffer_capacity_bytes := 12 } 3
      = .error .outOfRange ∧
    ImgInv { buffer_size := 4, image_count := 3, sel_image := 2,
             buffer_offset := 8, buffer_capacity_bytes := 12 } := by
  refine ⟨view_invariants.1 _ 3 (by decide), ?_⟩
  exact (view_invariants.2.1
    { buffer_size := 4, image_count := 3, buffer_capacity_bytes := 12 } 2
    { buffer_size := 4, image_count := 3, sel_image := 2,
      buffer_offset := 8, buffer_capacity_bytes := 12 } rfl).2.2

/-- **C8**: after a shallow copy the two images share the same backing buffer
reference, and a byte mutation written through either instance's buffer is
read back through the other's. -/
theorem shallow_copy_aliasing (bufs : Buffers) (dst src : CSH_Image)
    (bufs' : Buffers) (t : CSH_Image)
    (h : copy bufs dst src .shallow = .ok (bufs', t)) :
    t.buffer = src.buffer ∧ bufs' = bufs ∧
    ∀ idt ids pos v, t.buffer = some idt → src.buffer = some ids →
      idt < bufs.length → pos < (bufRead bufs idt).length →
      readByte (writeByte bufs idt pos v) ids pos = v ∧
      readByte (writeByte bufs ids pos v) idt pos = v := by
  simp [copy] at h
  obtain ⟨rfl, rfl⟩ := h
  refine ⟨rfl, rfl, ?_⟩
  intro idt ids pos v ht hs hid hpos
  rw [ht] at hs
  cases hs
  simp only [bufRead, List.getD_eq_getElem?_getD] at hpos
  have key : readByte (writeByte bufs idt pos v) idt pos = v := by
    simp only [readByte, writeByte, bufRead, List.getD_eq_getElem?_getD]
    rw [List.getElem?_set_self hid]
    simp only [Option.getD_some]
    rw [List.getElem?_set_self hpos]
    rfl
  exact ⟨key, key⟩

/-- Witness for C8 on a concrete store and image pair. -/
theorem shallow_copy_aliasing_witness :
    readByte (writeByte [[1, 2, 3]] 0 1 9) 0 1 = 9 := by
  have h := shallow_copy_aliasing [[1, 2, 3]]
    {} { buffer := some 0, buffer_size := 3, buffer_capacity_bytes := 3 }
    [[1, 2, 3]] { buffer := some 0, buffer_size := 3, buffer_capacity_bytes := 3 }
    rfl
  exact (h.2.2 0 0 1 9 rfl rfl (by decide) (by decide)).1

/-- An in-place segment overwrite keeps the buffer length. -/
theorem writeSeg_length (l seg : List Nat) (off : Nat)
    (h : off + seg.length ≤ l.length) :
    (writeSeg l off seg).length = l.length := by
  simp [writeSeg]
  omega

/-- Reading back the overwritten segment returns it, when it fits. -/
theorem writeSeg_view (l seg : List Nat) (off : Nat)
    (h : off + seg.length ≤ l.length) :
    ((writeSeg l off seg).drop off).take seg.length = seg := by
  have hassoc : writeSeg l off seg
      = l.take off ++ (seg ++ l.drop (off + seg.length)) := by
    simp [writeSeg]
  have hoff : (l.take off).length = off := by
    simp [List.length_take]
    omega
  rw [hassoc, List.drop_left' hoff, List.take_left' rfl]

/-- **C3**: a deep copy never allocates: it fails with a capacity error when the
destination has no buffer or fewer writable bytes from its current view than
the source view requires; on success the store keeps the same buffers (same
count, destination buffer reference and length unchanged) and the
destination's view payload is byte-identical to the source view. -/
theorem deep_copy_spec :
    (∀ (bufs : Buffers) (dst src : CSH_Image), dst.buffer = none →
      copy bufs dst src .deep = .error .capacityError) ∧
    (∀ (bufs : Buffers) (dst src : CSH_Image), dst.buffer.isSome →
      writableBytesFromView dst < src.buffer_size →
      copy bufs dst src .deep = .error .capacityError) ∧
    (∀ (bufs : Buffers) (dst src : CSH_Image) (out : Buffers × CSH_Image),
      copy bufs dst src .deep = .ok out →
      out.1.length = bufs.length ∧ out.2.buffer = dst.buffer) ∧
    (∀ (bufs : Buffers) (dst src : CSH_Image) (id : Nat)
        (out : Buffers × CSH_Image),
      dst.buffer = some id → id < bufs.length →
      capOf dst ≤ (bufRead bufs id).length →
      (viewBytes bufs src).length = src.buffer_size →
      copy bufs dst src .deep = .ok out →
      viewBytes out.1 out.2 = viewBytes bufs src ∧
      (bufRead out.1 id).length = (bufRead bufs id).length) := by
  have readSet : ∀ (bufs : Buffers) (id : Nat) (l : List Nat),
      id < bufs.length → bufRead (bufs.set id l) id = l := by
    intro bufs id l hid
    unfold bufRead
    rw [List.getD_eq_getElem?_getD, List.getElem?_set_self hid]
    rfl
  refine ⟨?_, ?_, ?_, ?_⟩
  · intro bufs dst src h
    simp [copy, h]
  · intro bufs dst src hsome hlt
    obtain ⟨id, hid⟩ := Option.isSome_iff_exists.mp hsome
    simp [copy, hid, hlt]
  · intro bufs dst src out h
    cases hb : dst.buffer with
    | none => simp [copy, hb] at h
    | some id =>
      simp only [copy, hb] at h
      split at h
      · exact Except.noConfusion h
      · injection h with h
        subst h
        exact ⟨by simp [storeWrite], rfl⟩
  · intro bufs dst src id out hb hidlen hcap hview h
    simp only [copy, hb] at h
    split at h
    · exact Except.noConfusion h
    · rename_i hge
      rw [Nat.not_lt] at hge
      injection h with h
      subst h
      obtain ⟨pay, hpay⟩ : ∃ pay, viewBytes bufs src = pay := ⟨_, rfl⟩
      rw [hpay] at hview ⊢
      rcases Nat.eq_zero_or_pos src.buffer_size with hz | hp
      · have hpaynil : pay = [] := by
          rw [hz] at hview
          exact List.length_eq_zero.mp hview
        have hseg : writeSeg (bufRead bufs id) dst.buffer_offset pay
            = bufRead bufs id := by
          rw [hpaynil]
          unfold writeSeg
          simp
        constructor
        · simp only [viewBytes, storeWrite]
          rw [readSet bufs id _ hidlen, hseg]
          simp [hz, hpaynil]
        · show (bufRead (storeWrite bufs id dst.buffer_offset pay) id).length
            = (bufRead bufs id).length
          unfold storeWrite
          rw [readSet bufs id _ hidlen, hseg]
      · have hfit : dst.buffer_offset + pay.length ≤ (bufRead bufs id).length := by
          rw [hview]
          unfold writableBytesFromView at hge
          split at hge <;> omega
        constructor
        · simp only [viewBytes, storeWrite]
          rw [readSet bufs id _ hidlen, ← hview]
          exact writeSeg_view _ _ _ hfit
        · show (bufRead (storeWrite bufs id dst.buffer_offset pay) id).length
            = (bufRead bufs id).length
          unfold storeWrite
          rw [readSet bufs id _ hidlen]
          exact writeSeg_length _ _ _ hfit

/-- Witness for C3: undersized destination rejected, exactly-sized destination
byte-identical. -/
theorem deep_copy_spec_witness :
    copy [[7, 8, 9, 0]] { buffer := none }
      { buffer := some 0, buffer_size := 3, buffer_capacity_bytes := 4 } .deep
      = .error .capacityError ∧
    copy [[7, 8, 9], [0, 0, 0]]
      { buffer := some 1, buffer_size := 3, image_count := 1,
        buffer_capacity_bytes := 3 }
      { buffer := some 0, buffer_size := 3, image_count := 1,
        buffer_capacity_bytes := 3 } .deep
      = .ok ([[7, 8, 9], [7, 8, 9]],
             { buffer := some 1, buffer_size := 3, image_count := 1,
               buffer_capacity_bytes := 3 }) ∧
    viewBytes [[7, 8, 9], [7, 8, 9]]
      { buffer := some 1, buffer_size := 3, image_count := 1,
        buffer_capacity_bytes := 3 }
      = viewBytes [[7, 8, 9], [0, 0, 0]]
        { buffer := some 0, buffer_size := 3, image_count := 1,
          buffer_capacity_bytes := 3 } := by
  refine ⟨deep_copy_spec.1 _ _ _ rfl, rfl, ?_⟩
  have h := deep_copy_spec.2.2.2 [[7, 8, 9], [0, 0, 0]]
    { buffer := some 1, buffer_size := 3, image_count := 1,
      buffer_capacity_bytes := 3 }
    { buffer := some 0, buffer_size := 3, image_count := 1,
      buffer_capacity_bytes := 3 } 1
    ([[7, 8, 9], [7, 8, 9]],
     { buffer := some 1, buffer_size := 3, image_count := 1,
       buffer_capacity_bytes := 3 })
    rfl (by decide) (by decide) (by decide) rfl
  exact h.1

/-- Decoding a little-endian u32 recovers the encoded value. -/
theorem rd32_le32 (n : Nat) (h : n < 2 ^ 32) (rest : List Nat) :
    rd32 (le32 n ++ rest) = some (n, rest) := by
  simp only [le32, List.cons_append, List.nil_append, rd32, Option.some.injEq,
    Prod.mk.injEq]
  exact ⟨by omega, trivial⟩

/-- Decoding a little-endian u64 recovers the encoded value. -/
theorem rd64_le64 (n : Nat) (h : n < 2 ^ 64) (rest : List Nat) :
    rd64 (le64 n ++ rest) = some (n, rest) := by
  simp only [le64, List.cons_append, List.nil_append, rd64, Option.some.injEq,
    Prod.mk.injEq]
  exact ⟨by omega, trivial⟩

/-- `rd32` on an exact 4-byte encoding. -/
theorem rd32_le32_nil (n : Nat) (h : n < 2 ^ 32) :
    rd32 (le32 n) = some (n, []) := by
  have := rd32_le32 n h []
  rwa [List.append_nil] at this

/-- `rd64` on an exact 8-byte encoding. -/
theorem rd64_le64_nil (n : Nat) (h : n < 2 ^ 64) :
    rd64 (le64 n) = some (n, []) := by
  have := rd64_le64 n h []
  rwa [List.append_nil] at this

/-- `le32` always encodes into 4 bytes. -/
theorem length_le32 (v : Nat) : (le32 v).length = 4 := rfl

/-- `le64` always encodes into 8 bytes. -/
theorem length_le64 (v : Nat) : (le64 v).length = 8 := rfl

/-- Taking 4 bytes from an encoded u32 plus a tail yields the encoding. -/
theorem take_le32 (v : Nat) (rest : List Nat) :
    (le32 v ++ rest).take 4 = le32 v :=
  List.take_left' (length_le32 v)

/-- Dropping 4 bytes from an encoded u32 plus a tail yields the tail. -/
theorem drop_le32 (v : Nat) (rest : List Nat) :
    (le32 v ++ rest).drop 4 = rest :=
  List.drop_left' (length_le32 v)

/-- Taking 8 bytes from an encoded u64 plus a tail yields the encoding. -/
theorem take_le64 (v : Nat) (rest : List Nat) :
    (le64 v ++ rest).take 8 = le64 v :=
  List.take_left' (length_le64 v)

/-- Dropping 8 bytes from an encoded u64 plus a tail yields the tail. -/
theorem drop_le64 (v : Nat) (rest : List Nat) :
    (le64 v ++ rest).drop 8 = rest :=
  List.drop_left' (length_le64 v)

/-- One parse step over a 4-byte-payload TLV entry. -/
theorem parseFields_step32 (n : Nat) (acc : LoadAcc) (tag v : Nat)
    (ht : tag < 2 ^ 32) (rest : List Nat) :
    parseFields (n + 1) acc (tlv32 tag v ++ rest)
      = match applyField acc tag (le32 v) with
        | .error e => .error e
        | .ok acc' => parseFields n acc' rest := by
  have h1 : tlv32 tag v ++ rest = le32 tag ++ (le64 4 ++ (le32 v ++ rest)) := by
    simp [tlv32]
  rw [h1]
  simp only [parseFields, rd32_le32 tag ht, rd64_le64 4 (by norm_num)]
  rw [if_neg (by rw [List.length_append, length_le32]; omega)]
  rw [take_le32, drop_le32]

/-- One parse step over an 8-byte-payload TLV entry. -/
theorem parseFields_step64 (n : Nat) (acc : LoadAcc) (tag v : Nat)
    (ht : tag < 2 ^ 32) (rest : List Nat) :
    parseFields (n + 1) acc (tlv64 tag v ++ rest)
      = match applyField acc tag (le64 v) with
        | .error e => .error e
        | .ok acc' => parseFields n acc' rest := by
  have h1 : tlv64 tag v ++ rest = le32 tag ++ (le64 8 ++ (le64 v ++ rest)) := by
    simp [tlv64]
  rw [h1]
  simp only [parseFields, rd32_le32 tag ht, rd64_le64 8 (by norm_num)]
  rw [if_neg (by rw [List.length_append, length_le64]; omega)]
  rw [take_le64, drop_le64]

/-- One parse step over the final bulk field (tag 100). -/
theorem parseFields_bulk (n : Nat) (acc : LoadAcc) (payload : List Nat)
    (h : payload.length < 2 ^ 64) :
    parseFields (n + 1) acc (le32 100 ++ (le64 payload.length ++ payload))
      = parseFields n { acc with bulk := some payload } [] := by
  simp only [parseFields, rd32_le32 100 (by norm_num),
    rd64_le64 payload.length h]
  rw [if_neg (by omega)]
  rw [List.take_length, List.drop_length]
  simp [applyField]

/-- Parsing the TLV encoding of a field list consumes exactly one count per
field and applies each field's effect in order. -/
theorem parseFields_encode (specs : List FieldSpec) :
    ∀ (n : Nat) (acc : LoadAcc) (rest : List Nat),
      (∀ s ∈ specs, s.tag < 2 ^ 32 ∧ SpecOk s) →
      parseFields (specs.length + n) acc (encodeFields specs ++ rest)
        = match applySpecs acc specs with
          | .error e => .error e
          | .ok acc' => parseFields n acc' rest := by
  induction specs with
  | nil =>
    intro n acc rest _
    simp [encodeFields, applySpecs]
  | cons s specs ih =>
    intro n acc rest hok
    obtain ⟨⟨htag, hval⟩, hrest⟩ := List.forall_mem_cons.mp hok
    have hlen : (s :: specs).length + n = (specs.length + n) + 1 := by
      simp [List.length_cons]
      omega
    rw [hlen]
    have hassoc : encodeFields (s :: specs) ++ rest
        = encodeField s ++ (encodeFields specs ++ rest) := by
      simp [encodeFields]
    rw [hassoc]
    cases hv : s.val with
    | u32 v =>
      have henc : encodeField s = tlv32 s.tag v := by simp [encodeField, hv]
      rw [henc, parseFields_step32 (specs.length + n) acc s.tag v htag]
      have happ : applySpec acc s = applyField acc s.tag (le32 v) := by
        simp [applySpec, hv]
      simp only [applySpecs, happ]
      cases applyField acc s.tag (le32 v) with
      | error e => rfl
      | ok acc' => exact ih n acc' rest hrest
    | u64 v =>
      have henc : encodeField s = tlv64 s.tag v := by simp [encodeField, hv]
      rw [henc, parseFields_step64 (specs.length + n) acc s.tag v htag]
      have happ : applySpec acc s = applyField acc s.tag (le64 v) := by
        simp [applySpec, hv]
      simp only [applySpecs, happ]
      cases applyField acc s.tag (le64 v) with
      | error e => rfl
      | ok acc' => exact ih n acc' rest hrest

/-- Every field written by `saveImage` carries an in-range tag and value,
given the C++ field widths. -/
theorem imgSpecs_ok (img : CSH_Image)
    (hw : img.width < 2 ^ 32) (hh : img.height < 2 ^ 32)
    (hcam : img.camera_id < 2 ^ 32) (hfmt : img.format < 2 ^ 32)
    (hmb : img.memory_bit < 2 ^ 32) (hob : img.original_bit < 2 ^ 32)
    (hpat : img.pattern < 2 ^ 32) (hal : img.memory_align < 2 ^ 32)
    (hbs : img.buffer_size < 2 ^ 64) (hic : img.image_count < 2 ^ 32)
    (hsel : img.sel_image < 2 ^ 32) (hoff : img.buffer_offset < 2 ^ 64) :
    ∀ s ∈ imgSpecs img, s.tag < 2 ^ 32 ∧ SpecOk s := by
  intro s hs
  simp only [imgSpecs, List.mem_cons, List.not_mem_nil, or_false] at hs
  rcases hs with rfl | rfl | rfl | rfl | rfl | rfl | rfl | rfl | rfl | rfl
    | rfl | rfl | rfl <;>
    refine ⟨by norm_num, ?_⟩ <;>
    simp only [SpecOk] <;>
    first
      | assumption
      | (cases img.bEnable <;> norm_num)

/-- Applying the decoded metadata fields to an empty accumulator rebuilds
the image metadata. -/
theorem applySpecs_img (img : CSH_Image)
    (hw : img.width < 2 ^ 32) (hh : img.height < 2 ^ 32)
    (hcam : img.camera_id < 2 ^ 32) (hfmt : img.format < 2 ^ 32)
    (hmb : img.memory_bit < 2 ^ 32) (hob : img.original_bit < 2 ^ 32)
    (hpat : img.pattern < 2 ^ 32) (hal : img.memory_align < 2 ^ 32)
    (hbs : img.buffer_size < 2 ^ 64) (hic : img.image_count < 2 ^ 32)
    (hsel : img.sel_image < 2 ^ 32) (hoff : img.buffer_offset < 2 ^ 64) :
    applySpecs (⟨{}, none⟩ : LoadAcc) (imgSpecs img)
      = .ok ⟨{ width := img.width, height := img.height,
               bEnable := img.bEnable, camera_id := img.camera_id,
               format := img.format, memory_bit := img.memory_bit,
               original_bit := img.original_bit, pattern := img.pattern,
               memory_align := img.memory_align,
               buffer_size := img.buffer_size, image_count := img.image_count,
               sel_image := img.sel_image, buffer := none,
               buffer_offset := img.buffer_offset,
               buffer_capacity_bytes := 0 }, none⟩ := by
  cases hbe : img.bEnable <;>
    simp [imgSpecs, applySpecs, applySpec, applyField, hbe,
      rd32_le32_nil _ hw, rd32_le32_nil _ hh, rd32_le32_nil _ hcam,
      rd32_le32_nil _ hfmt, rd32_le32_nil _ hmb, rd32_le32_nil _ hob,
      rd32_le32_nil _ hpat, rd32_le32_nil _ hal, rd64_le64_nil _ hbs,
      rd32_le32_nil _ hic, rd32_le32_nil _ hsel, rd64_le64_nil _ hoff,
      rd32_le32_nil 1 (by norm_num), rd32_le32_nil 0 (by norm_num)]

/-- A remaining count of one plus a bulk field completes the parse. -/
theorem parseFields_one_bulk (acc : LoadAcc) (payload : List Nat)
    (h : payload.length < 2 ^ 64) :
    parseFields 1 acc (le32 100 ++ (le64 payload.length ++ payload))
      = .ok { acc with bulk := some payload } :=
  Eq.trans (parseFields_bulk 0 acc payload h) rfl

/-- **C2**: TLV round-trip — saving an image and loading the written bytes
reproduces identical width, height, format, pattern, and buffer bytes. -/
theorem save_load_roundtrip (bufs bufs2 : Buffers) (img : CSH_Image) (id : Nat)
    (hb : img.buffer = some id)
    (hlen : (bufRead bufs id).length = totalBytes img)
    (htot : totalBytes img < 2 ^ 64)
    (hw : img.width < 2 ^ 32) (hh : img.height < 2 ^ 32)
    (hcam : img.camera_id < 2 ^ 32) (hfmt : img.format < 2 ^ 32)
    (hmb : img.memory_bit < 2 ^ 32) (hob : img.original_bit < 2 ^ 32)
    (hpat : img.pattern < 2 ^ 32) (hal : img.memory_align < 2 ^ 32)
    (hbs : img.buffer_size < 2 ^ 64) (hic : img.image_count < 2 ^ 32)
    (hsel : img.sel_image < 2 ^ 32) (hoff : img.buffer_offset < 2 ^ 64) :
    ∃ (bufs' : Buffers) (img' : CSH_Image),
      loadImage bufs2 (saveImage bufs img) = .ok (bufs', img') ∧
      img'.width = img.width ∧ img'.height = img.height ∧
      img'.format = img.format ∧ img'.pattern = img.pattern ∧
      ∃ id2 : Nat, img'.buffer = some id2 ∧
        bufRead bufs' id2 = bufRead bufs id := by
  have hpaytake : (bufRead bufs id).take (totalBytes img) = bufRead bufs id := by
    rw [← hlen]
    exact List.take_length _
  have hok := imgSpecs_ok img hw hh hcam hfmt hmb hob hpat hal hbs hic hsel hoff
  have hsave : saveImage bufs img
      = le32 kMagic ++ (le32 kVersion ++ (le32 14 ++
        (encodeFields (imgSpecs img) ++ (le32 100 ++
        (le64 (totalBytes img) ++ bufRead bufs id))))) := by
    simp [saveImage, hb, hpaytake, List.append_assoc]
  have hparse : parseFields 14 (⟨{}, none⟩ : LoadAcc)
      (encodeFields (imgSpecs img) ++ (le32 100 ++
        (le64 (totalBytes img) ++ bufRead bufs id)))
      = .ok ⟨{ width := img.width, height := img.height,
               bEnable := img.bEnable, camera_id := img.camera_id,
               format := img.format, memory_bit := img.memory_bit,
               original_bit := img.original_bit, pattern := img.pattern,
               memory_align := img.memory_align,
               buffer_size := img.buffer_size, image_count := img.image_count,
               sel_image := img.sel_image, buffer := none,
               buffer_offset := img.buffer_offset,
               buffer_capacity_bytes := 0 },
             some (bufRead bufs id)⟩ := by
    rw [show (14 : Nat) = (imgSpecs img).length + 1 from by simp [imgSpecs]]
    rw [parseFields_encode (imgSpecs img) 1 _ _ hok]
    rw [applySpecs_img img hw hh hcam hfmt hmb hob hpat hal hbs hic hsel hoff]
    rw [show totalBytes img = (bufRead bufs id).length from hlen.symm]
    exact parseFields_one_bulk _ _ (by rw [hlen]; exact htot)
  refine ⟨bufs2 ++ [bufRead bufs id],
    { img with buffer := some bufs2.length,
               buffer_capacity_bytes := totalBytes img },
    ?_, rfl, rfl, rfl, rfl, bufs2.length, rfl, ?_⟩
  · rw [hsave]
    simp only [loadImage, rd32_le32 kMagic (by norm_num [kMagic]),
      rd32_le32 kVersion (by norm_num [kVersion]), rd32_le32 14 (by norm_num),
      ne_eq, not_true_eq_false, ite_false, if_false]
    rw [hparse]
    simp only [finishLoad]
    rw [if_neg (by simp [totalBytes, hlen])]
    rfl
  · unfold bufRead
    rw [List.getD_eq_getElem?_getD, List.getElem?_concat_length]
    rfl

/-- Witness for C2: a 2-byte Gray8 image survives the save/load round-trip. -/
theorem save_load_roundtrip_witness :
    ∃ (bufs' : Buffers) (img' : CSH_Image),
      loadImage [] (saveImage [[5, 6]]
        { width := 2, height := 1, buffer := some 0, buffer_size := 2,
          image_count := 1, buffer_capacity_bytes := 2 }) = .ok (bufs', img') ∧
      img'.width = 2 ∧ img'.height = 1 ∧ img'.format = 101 ∧
      img'.pattern = 0 ∧
      ∃ id2 : Nat, img'.buffer = some id2 ∧
        bufRead bufs' id2 = [5, 6] := by
  have h := save_load_roundtrip [[5, 6]] []
    { width := 2, height := 1, buffer := some 0, buffer_size := 2,
      image_count := 1, buffer_capacity_bytes := 2 } 0
    rfl (by decide) (by decide) (by decide) (by decide) (by decide) (by decide)
    (by decide) (by decide) (by decide) (by decide) (by decide) (by decide)
    (by decide) (by decide)
  exact h

/-- A list shorter than 4 bytes holds no u32. -/
theorem rd32_short (l : List Nat) (h : l.length < 4) : rd32 l = none := by
  rcases l with _ | ⟨a, _ | ⟨b, _ | ⟨c, _ | ⟨d, rest⟩⟩⟩⟩
  · rfl
  · rfl
  · rfl
  · rfl
  · exfalso
    simp only [List.length_cons] at h
    exact absurd h (by omega)

/-- Reading a u32 consumes exactly 4 bytes. -/
theorem rd32_len (l : List Nat) (v : Nat) (r : List Nat)
    (h : rd32 l = some (v, r)) : l.length = r.length + 4 := by
  rcases l with _ | ⟨a, _ | ⟨b, _ | ⟨c, _ | ⟨d, rest⟩⟩⟩⟩
  · simp [rd32] at h
  · simp [rd32] at h
  · simp [rd32] at h
  · simp [rd32] at h
  · simp only [rd32, Option.some.injEq, Prod.mk.injEq] at h
    obtain ⟨-, rfl⟩ := h
    simp only [List.length_cons]

/-- **C6**: `saveImage` writes a header beginning with the 4-byte magic
(`0x43485349`, ASCII `CHSI` read big-endian, serialized little-endian)
followed by version 1; `loadImage` fails for every input whose magic or
version differ and reports too-short (truncated) files as I/O errors. -/
theorem tlv_header (bufs bufs2 : Buffers) (img : CSH_Image)
    (bytes : List Nat) :
    ((saveImage bufs img).take 8 = le32 kMagic ++ le32 kVersion ∧
      kMagic = 67 * 2 ^ 24 + 72 * 2 ^ 16 + 83 * 2 ^ 8 + 73 ∧ kVersion = 1) ∧
    (∀ m r1, rd32 bytes = some (m, r1) → m ≠ kMagic →
      loadImage bufs2 bytes = .error (.ioError "bad magic")) ∧
    (∀ r1 v r2, rd32 bytes = some (kMagic, r1) → rd32 r1 = some (v, r2) →
      v ≠ kVersion → loadImage bufs2 bytes = .error (.ioError "bad version")) ∧
    (bytes.length < 12 → ∃ msg, loadImage bufs2 bytes = .error (.ioError msg)) := by
  refine ⟨⟨?_, by norm_num [kMagic], rfl⟩, ?_, ?_, ?_⟩
  · simp only [saveImage]
    rw [List.append_assoc, List.append_assoc]
    exact List.take_left' rfl
  · intro m r1 hrd hm
    simp [loadImage, hrd, hm]
  · intro r1 v r2 hrd hrd1 hv
    simp [loadImage, hrd, hrd1, hv]
  · intro hshort
    cases hrd : rd32 bytes with
    | none => exact ⟨"truncated", by simp [loadImage, hrd]⟩
    | some p =>
      obtain ⟨m, r1⟩ := p
      by_cases hm : m = kMagic
      · subst hm
        cases hrd1 : rd32 r1 with
        | none => exact ⟨"truncated", by simp [loadImage, hrd, hrd1]⟩
        | some q =>
          obtain ⟨v, r2⟩ := q
          by_cases hv : v = kVersion
          · subst hv
            have h1 := rd32_len _ _ _ hrd
            have h2 := rd32_len _ _ _ hrd1
            have hr2 : rd32 r2 = none := rd32_short _ (by omega)
            exact ⟨"truncated", by simp [loadImage, hrd, hrd1, hr2]⟩
          · exact ⟨"bad version", by simp [loadImage, hrd, hrd1, hv]⟩
      · exact ⟨"bad magic", by simp [loadImage, hrd, hm]⟩

/-- Witness for C6: wrong magic rejected, wrong version rejected, truncated
input rejected, and the saved header bytes are as stated. -/
theorem tlv_header_witness :
    loadImage [] [0, 0, 0, 0, 0, 0, 0, 0, 0, 0, 0, 0]
      = .error (.ioError "bad magic") ∧
    loadImage [] [73, 83, 72, 67, 2, 0, 0, 0]
      = .error (.ioError "bad version") ∧
    (∃ msg, loadImage [] [73] = .error (.ioError msg)) ∧
    (saveImage [] {}).take 8 = le32 kMagic ++ le32 kVersion := by
  refine ⟨?_, ?_, ?_, ?_⟩
  · exact (tlv_header [] [] {} [0, 0, 0, 0, 0, 0, 0, 0, 0, 0, 0, 0]).2.1
      0 [0, 0, 0, 0, 0, 0, 0, 0] rfl (by norm_num [kMagic])
  · exact (tlv_header [] [] {} [73, 83, 72, 67, 2, 0, 0, 0]).2.2.1
      [2, 0, 0, 0] 2 [] (by decide) rfl (by norm_num [kVersion])
  · exact (tlv_header [] [] {} [73]).2.2.2 (by norm_num)
  · exact (tlv_header [] [] {} []).1.1

end PixelPlus
